import Mathlib

/-!
Shallow embedding of the modular stable-layout engine of the
cheshire-stables-configurator repository, over exact rational coordinates.

Sources embedded:
  * `src/lib/geometry.ts` — rotation / overlap kernel,
  * `src/lib/modules.ts` — the static module catalog (connector layout),
  * `src/components/configurator/StableConfigurator.tsx` — the layout
    operations (`attach`, `connectExistingUnit`, `placeModuleFree`,
    `rotateSelected`, `toggleExtra`, `deleteUnit`, `rotateLayout`).

JavaScript numbers are modelled by `ℚ`; all arithmetic performed by the
engine (halving, subtraction, comparison) is exact on the rationals.  The
only transcendental use, `Math.cos`/`Math.sin` of 90° in `rotateLayout`,
is taken at its exact real value (0 and 1).

Renderer-only data (`frontFeatures`, extra catalogs, prices) is omitted
from the module records: no layout operation reads it.
-/

inductive Rotation where
  | r0 | r90 | r180 | r270
  deriving DecidableEq, Repr

inductive ModuleKind where
  | stable | shelter | corner | tack_room
  deriving DecidableEq, Repr

inductive Face where
  | N | E | S | W
  deriving DecidableEq, Repr

structure Box where
  x : ℚ
  y : ℚ
  w : ℚ
  d : ℚ
  deriving DecidableEq, Repr

/-- Embeds `rotatedSize` from `src/lib/geometry.ts`: swaps width and depth at 90°/270°. -/
def rotatedSize (w d : ℚ) (rot : Rotation) : ℚ × ℚ :=
  if rot = .r90 ∨ rot = .r270 then (d, w) else (w, d)

/-- Embeds `rotatePoint` from `src/lib/geometry.ts`: maps a point of the unrotated
local frame into the rotated bounding-box frame. -/
def rotatePoint (x y w d : ℚ) (rot : Rotation) : ℚ × ℚ :=
  match rot with
  | .r0 => (x, y)
  | .r90 => (d - y, x)
  | .r180 => (w - x, d - y)
  | .r270 => (y, w - x)

/-- Embeds `rotateVec` from `src/lib/geometry.ts`: rotates a direction vector. -/
def rotateVec (nx ny : ℚ) (rot : Rotation) : ℚ × ℚ :=
  match rot with
  | .r0 => (nx, ny)
  | .r90 => (-ny, nx)
  | .r180 => (-nx, -ny)
  | .r270 => (ny, -nx)

/-- Embeds `overlaps` from `src/lib/geometry.ts`: strict axis-aligned rectangle
intersection, no tolerance. -/
def overlaps (a b : Box) : Bool :=
  !(decide (a.x + a.w ≤ b.x) || decide (b.x + b.w ≤ a.x) ||
    decide (a.y + a.d ≤ b.y) || decide (b.y + b.d ≤ a.y))

structure Connector where
  id : String
  x : ℚ
  y : ℚ
  nx : ℚ
  ny : ℚ
  deriving DecidableEq, Repr

structure ModuleDef where
  id : String
  kind : ModuleKind
  widthFt : ℚ
  depthFt : ℚ
  rotations : List Rotation
  connectors : List Connector
  deriving DecidableEq, Repr

structure PlacedUnit where
  uid : String
  moduleId : String
  xFt : ℚ
  yFt : ℚ
  rot : Rotation
  selectedExtras : List String
  deriving DecidableEq, Repr

structure Connection where
  aUid : String
  aConn : String
  bUid : String
  bConn : String
  deriving DecidableEq, Repr

structure Layout where
  units : List PlacedUnit
  connections : List Connection
  deriving DecidableEq, Repr

/-- Embeds `makeStraightConnectors` from `src/lib/modules.ts`. -/
def makeStraightConnectors (w d : ℚ) : List Connector :=
  [⟨"W", 0, d / 2, -1, 0⟩, ⟨"E", w, d / 2, 1, 0⟩]

/-- Embeds `makeCornerStableConnectors` from `src/lib/modules.ts` (the width
argument of the source is not used by its body). -/
def makeCornerStableConnectors (_w d : ℚ) : List Connector :=
  [⟨"S", 10, d, 0, 1⟩, ⟨"W", 0, d / 2, -1, 0⟩]

/-- Embeds `makeRHCornerStableConnectors` from `src/lib/modules.ts`. -/
def makeRHCornerStableConnectors (w d : ℚ) : List Connector :=
  [⟨"S", 6, d, 0, 1⟩, ⟨"E", w, d / 2, 1, 0⟩]

def allRots : List Rotation := [.r0, .r90, .r180, .r270]

/-- The `MODULES` catalog from `src/lib/modules.ts` (layout-relevant fields). -/
def MODULES : List ModuleDef :=
  [ ⟨"stable_6x12", .stable, 6, 12, allRots, makeStraightConnectors 6 12⟩,
    ⟨"stable_8x12", .stable, 8, 12, allRots, makeStraightConnectors 8 12⟩,
    ⟨"stable_10x12", .stable, 10, 12, allRots, makeStraightConnectors 10 12⟩,
    ⟨"stable_12x12", .stable, 12, 12, allRots, makeStraightConnectors 12 12⟩,
    ⟨"stable_14x12", .stable, 14, 12, allRots, makeStraightConnectors 14 12⟩,
    ⟨"stable_16x12", .stable, 16, 12, allRots, makeStraightConnectors 16 12⟩,
    ⟨"shelter_12x12", .shelter, 12, 12, allRots, makeStraightConnectors 12 12⟩,
    ⟨"corner_16x12", .corner, 16, 12, allRots, makeCornerStableConnectors 16 12⟩,
    ⟨"corner_rh_16x12", .corner, 16, 12, allRots, makeRHCornerStableConnectors 16 12⟩,
    ⟨"tack_room_12x12", .tack_room, 12, 12, allRots, makeStraightConnectors 12 12⟩ ]

/-- Embeds `getModule`, parameterised by the catalog it searches (the source reads
the global `MODULES`; the spec treats the catalog as an injected read-only
dependency). -/
def getModuleIn (cat : List ModuleDef) (id : String) : Option ModuleDef :=
  cat.find? (fun m => decide (m.id = id))

/-- Embeds `bbox` from `StableConfigurator.tsx`. -/
def bbox (u : PlacedUnit) (m : ModuleDef) : Box :=
  let wd := rotatedSize m.widthFt m.depthFt u.rot
  ⟨u.xFt, u.yFt, wd.1, wd.2⟩

structure CW where
  x : ℚ
  y : ℚ
  nx : ℚ
  ny : ℚ
  deriving DecidableEq, Repr

/-- Embeds `connectorWorld` from `StableConfigurator.tsx`. -/
def connectorWorld (u : PlacedUnit) (m : ModuleDef) (c : Connector) : CW :=
  let p := rotatePoint c.x c.y m.widthFt m.depthFt u.rot
  let v := rotateVec c.nx c.ny u.rot
  ⟨u.xFt + p.1, u.yFt + p.2, v.1, v.2⟩

/-- Embeds `nextRotation` from `StableConfigurator.tsx` (cyclic successor in the
module's allowed-rotation list). -/
def nextRotation (rots : List Rotation) (r : Rotation) : Rotation :=
  rots.getD ((rots.indexOf r + 1) % rots.length) r

/-- Embeds `getFrontFace` from `StableConfigurator.tsx`. -/
def getFrontFace (rot : Rotation) : Face :=
  match rot with
  | .r0 => .S
  | .r90 => .W
  | .r180 => .N
  | .r270 => .E

inductive LayoutError where
  | unknownModule | unknownUnit | unknownConnector | connectorInUse
  | noCompatibleConnector | overlap | rotationLocked | lastUnit
  deriving DecidableEq, Repr

def isStdKind : ModuleKind → Bool
  | .stable => true
  | .shelter => true
  | .tack_room => true
  | .corner => false

/-- Embeds `canConnect` from `StableConfigurator.tsx`, verbatim: note that it
compares connector ids against the role labels `LEFT` / `RIGHT` /
`DOOR_SIDE_LEFT` / `DOOR_SIDE_RIGHT` / `BACK`, while every connector in the
`MODULES` catalog carries one of the directional ids `W` / `E` / `N` / `S`. -/
def canConnect (sourceConn : String) (sourceKind : ModuleKind)
    (targetConn : String) (targetKind : ModuleKind) : Bool :=
  if isStdKind sourceKind && isStdKind targetKind then
    (sourceConn == "LEFT" && targetConn == "RIGHT") ||
    (sourceConn == "RIGHT" && targetConn == "LEFT")
  else if sourceKind == .corner && isStdKind targetKind then
    (sourceConn == "DOOR_SIDE_LEFT" && targetConn == "LEFT") ||
    (sourceConn == "DOOR_SIDE_RIGHT" && targetConn == "RIGHT") ||
    (sourceConn == "BACK" && (targetConn == "LEFT" || targetConn == "RIGHT"))
  else if isStdKind sourceKind && targetKind == .corner then
    (sourceConn == "LEFT" && targetConn == "DOOR_SIDE_LEFT") ||
    (sourceConn == "RIGHT" && targetConn == "DOOR_SIDE_RIGHT") ||
    ((sourceConn == "LEFT" || sourceConn == "RIGHT") && targetConn == "BACK")
  else false

/-- Embeds `shouldFaceInward` from `StableConfigurator.tsx`.  The source looks the
standard unit's connector up by id with a non-null assertion; the `none`
branch of that lookup is unreachable for ids drawn from the module itself. -/
def shouldFaceInward (standardUnit : PlacedUnit) (standardMod : ModuleDef)
    (cornerUnit : PlacedUnit) (cornerMod : ModuleDef)
    (standardConn : String) : Option Face :=
  if standardMod.kind = .corner ∨ cornerMod.kind ≠ .corner then none
  else
    match standardMod.connectors.find? (fun cc => decide (cc.id = standardConn)) with
    | none => none
    | some cdef =>
      let scw := connectorWorld standardUnit standardMod cdef
      let ccx := cornerUnit.xFt + cornerMod.widthFt / 2
      let ccy := cornerUnit.yFt + cornerMod.depthFt / 2
      let dx := ccx - scw.x
      let dy := ccy - scw.y
      if |dx| > |dy| then some (if dx > 0 then .E else .W)
      else some (if dy > 0 then .S else .N)

def findUnit (st : Layout) (uid : String) : Option PlacedUnit :=
  st.units.find? (fun u => decide (u.uid = uid))

/-- Embeds `isUsed` from `StableConfigurator.tsx`: whether a connector of a unit is
consumed by some connection. -/
def isUsed (connections : List Connection) (uid conn : String) : Bool :=
  connections.any (fun c =>
    decide ((c.aUid = uid ∧ c.aConn = conn) ∨ (c.bUid = uid ∧ c.bConn = conn)))

/-- The connections a given unit participates in (`myCons` in
`rotateSelected`). -/
def connectionsOf (st : Layout) (uid : String) : List Connection :=
  st.connections.filter (fun c => decide (c.aUid = uid ∨ c.bUid = uid))

/-- Embeds `isValidPosition` from `StableConfigurator.tsx`: strict overlap test
against every other unit, no tolerance.  The source throws on an unknown
module id (callers resolve the id first); units whose own module id does not
resolve cannot reject a placement. -/
def isValidPosition (cat : List ModuleDef) (units : List PlacedUnit)
    (moduleId : String) (x y : ℚ) (rot : Rotation)
    (excludeUid : Option String) : Bool :=
  match getModuleIn cat moduleId with
  | none => false
  | some m =>
    let bNew := bbox ⟨"test", moduleId, x, y, rot, []⟩ m
    !(units.any (fun u =>
      !(decide (excludeUid = some u.uid)) &&
      (match getModuleIn cat u.moduleId with
       | none => false
       | some mu => overlaps bNew (bbox u mu))))

structure Cand where
  rot : Rotation
  conn : String
  x : ℚ
  y : ℚ
  score : ℚ
  deriving DecidableEq, Repr

structure CandT where
  rot : Rotation
  conn : String
  targetConn : String
  x : ℚ
  y : ℚ
  score : ℚ
  deriving DecidableEq, Repr

/-- One candidate of the matching loop shared by `attach` and
`connectExistingUnit` in `StableConfigurator.tsx`: compatibility gate,
placement formula, dot-product filters and scoring, front-face bonus.
Returns `none` where the source hits `continue`. -/
def scoreCand (newMod aMod : ModuleDef) (sourceUnit : PlacedUnit)
    (tcId : String) (aW : CW) (rot : Rotation) (c : Connector) : Option Cand :=
  if !canConnect c.id newMod.kind tcId aMod.kind then none
  else
    let p := rotatePoint c.x c.y newMod.widthFt newMod.depthFt rot
    let v := rotateVec c.nx c.ny rot
    let x := aW.x - p.1
    let y := aW.y - p.2
    let dot := v.1 * aW.nx + v.2 * aW.ny
    let scoreRes : Option ℚ :=
      if isStdKind newMod.kind && isStdKind aMod.kind then
        if dot ≥ -(7/10 : ℚ) then none else some (-dot)
      else if newMod.kind = .corner ∨ aMod.kind = .corner then
        if c.id = "DOOR_SIDE_LEFT" ∨ c.id = "DOOR_SIDE_RIGHT" ∨
           tcId = "DOOR_SIDE_LEFT" ∨ tcId = "DOOR_SIDE_RIGHT" then
          if dot < (7/10 : ℚ) then none else some (1 - dot)
        else if c.id = "BACK" ∨ tcId = "BACK" then
          if dot ≥ -(7/10 : ℚ) then none else some (-dot)
        else some |dot|
      else some |dot|
    match scoreRes with
    | none => none
    | some score =>
      let frontFaceBonus : ℚ :=
        if isStdKind newMod.kind && (aMod.kind == ModuleKind.corner) then
          match shouldFaceInward ⟨"temp", newMod.id, x, y, rot, []⟩ newMod
              sourceUnit aMod c.id with
          | none => 0
          | some tf => if getFrontFace rot = tf then 1/5 else 0
        else 0
      some ⟨rot, c.id, x, y, score - frontFaceBonus⟩

/-- The rotation × connector loop of `attach` for a fixed target connector. -/
def innerSearch (newMod aMod : ModuleDef) (sourceUnit : PlacedUnit)
    (tcId : String) (aW : CW) : Option Cand :=
  newMod.rotations.foldl (fun acc rot =>
    newMod.connectors.foldl (fun acc c =>
      match scoreCand newMod aMod sourceUnit tcId aW rot c with
      | none => acc
      | some cand =>
        match acc with
        | none => some cand
        | some b => if cand.score < b.score then some cand else some b) acc) none

/-- The full candidate search of `attach`: every unused connector of the
source unit is tried as target. -/
def attachSearch (aMod newMod : ModuleDef) (sourceUnit : PlacedUnit)
    (connections : List Connection) : Option CandT :=
  aMod.connectors.foldl (fun bestOverall tc =>
    if isUsed connections sourceUnit.uid tc.id then bestOverall
    else
      let aW := connectorWorld sourceUnit aMod tc
      match innerSearch newMod aMod sourceUnit tc.id aW with
      | none => bestOverall
      | some best =>
        match bestOverall with
        | none => some ⟨best.rot, best.conn, tc.id, best.x, best.y, best.score⟩
        | some bo =>
          if best.score < bo.score then
            some ⟨best.rot, best.conn, tc.id, best.x, best.y, best.score⟩
          else some bo) none

/-- Embeds `attach` from `StableConfigurator.tsx`.  The `targetConn` argument of the
source is never read by its body (the search tries every unused connector);
it is kept here for signature fidelity.  Returns the post-state and the
error, the post-state being unchanged on every failure path. -/
def attach (cat : List ModuleDef) (st : Layout) (newUid : String)
    (moduleId : String) (_targetConn : String) (sourceUid : String) :
    Layout × Option LayoutError :=
  match findUnit st sourceUid with
  | none => (st, some .unknownUnit)
  | some sourceUnit =>
  match getModuleIn cat sourceUnit.moduleId with
  | none => (st, some .unknownModule)
  | some aMod =>
  match getModuleIn cat moduleId with
  | none => (st, some .unknownModule)
  | some newMod =>
  match attachSearch aMod newMod sourceUnit st.connections with
  | none => (st, some .noCompatibleConnector)
  | some best =>
    let newUnit : PlacedUnit := ⟨newUid, moduleId, best.x, best.y, best.rot, []⟩
    let bNew := bbox newUnit newMod
    if st.units.any (fun u =>
        match getModuleIn cat u.moduleId with
        | none => false
        | some mu =>
          let bE := bbox u mu
          let overlapX := min (bNew.x + bNew.w) (bE.x + bE.w) - max bNew.x bE.x
          let overlapY := min (bNew.y + bNew.d) (bE.y + bE.d) - max bNew.y bE.y
          decide ((1/2 : ℚ) < overlapX ∧ (1/2 : ℚ) < overlapY)) then
      (st, some .overlap)
    else
      ({ units := st.units ++ [newUnit],
         connections := st.connections ++
           [⟨sourceUnit.uid, best.targetConn, newUid, best.conn⟩] }, none)

/-- Embeds `placeModuleFree` from `StableConfigurator.tsx`. -/
def placeModuleFree (cat : List ModuleDef) (st : Layout) (newUid : String)
    (moduleId : String) (x y : ℚ) : Layout × Option LayoutError :=
  match getModuleIn cat moduleId with
  | none => (st, some .unknownModule)
  | some m =>
    let centeredX := x - m.widthFt / 2
    let centeredY := y - m.depthFt / 2
    if !isValidPosition cat st.units moduleId centeredX centeredY .r0 none then
      (st, some .overlap)
    else
      ({ st with units := st.units ++
          [⟨newUid, moduleId, centeredX, centeredY, .r0, []⟩] }, none)

/-- The rotation × connector loop of `connectExistingUnit`: same scoring as
`attach` except that a connector already used by the moving unit is skipped
only when its existing connection goes to a third unit. -/
def reconnectSearch (unitMod targetMod : ModuleDef) (unitU : PlacedUnit)
    (targetUnitUid targetConn : String) (aW : CW)
    (connections : List Connection) : Option Cand :=
  unitMod.rotations.foldl (fun acc rot =>
    unitMod.connectors.foldl (fun acc c =>
      let skip := isUsed connections unitU.uid c.id &&
        (match connections.find? (fun conn =>
            decide ((conn.aUid = unitU.uid ∧ conn.aConn = c.id) ∨
                    (conn.bUid = unitU.uid ∧ conn.bConn = c.id))) with
         | none => false
         | some existingConn =>
           decide (existingConn.aUid ≠ targetUnitUid ∧
                   existingConn.bUid ≠ targetUnitUid))
      if skip then acc
      else
        match scoreCand unitMod targetMod unitU targetConn aW rot c with
        | none => acc
        | some cand =>
          match acc with
          | none => some cand
          | some b => if cand.score < b.score then some cand else some b) acc) none

/-- Embeds `connectExistingUnit` from `StableConfigurator.tsx` (the `reconnect`
operation of the spec). -/
def connectExistingUnit (cat : List ModuleDef) (st : Layout)
    (unitUid targetConn targetUnitUid : String) : Layout × Option LayoutError :=
  match findUnit st unitUid, findUnit st targetUnitUid with
  | none, _ => (st, some .unknownUnit)
  | _, none => (st, some .unknownUnit)
  | some unitU, some targetUnit =>
  match getModuleIn cat targetUnit.moduleId with
  | none => (st, some .unknownModule)
  | some targetMod =>
  match targetMod.connectors.find? (fun c => decide (c.id = targetConn)) with
  | none => (st, some .unknownConnector)
  | some targetConnDef =>
  if isUsed st.connections targetUnit.uid targetConn then
    (st, some .connectorInUse)
  else
  let aW := connectorWorld targetUnit targetMod targetConnDef
  match getModuleIn cat unitU.moduleId with
  | none => (st, some .unknownModule)
  | some unitMod =>
  match reconnectSearch unitMod targetMod unitU targetUnit.uid targetConn aW
      st.connections with
  | none => (st, some .noCompatibleConnector)
  | some best =>
  if !isValidPosition cat st.units unitU.moduleId best.x best.y best.rot
      (some unitUid) then
    (st, some .overlap)
  else
    let updatedUnit : PlacedUnit :=
      { unitU with xFt := best.x, yFt := best.y, rot := best.rot }
    let filteredConnections := st.connections.filter (fun c =>
      decide (c.aUid ≠ unitUid ∧ c.bUid ≠ unitUid))
    ({ units := st.units.map (fun u => if u.uid = unitUid then updatedUnit else u),
       connections := filteredConnections ++
         [⟨targetUnit.uid, targetConn, unitUid, best.conn⟩] }, none)

/-- Embeds `rotateSelected` from `StableConfigurator.tsx` (the `rotateUnit`
operation of the spec; the selection is the argument). -/
def rotateSelected (cat : List ModuleDef) (st : Layout) (selectedUid : String) :
    Layout × Option LayoutError :=
  match findUnit st selectedUid with
  | none => (st, some .unknownUnit)
  | some selected =>
  match getModuleIn cat selected.moduleId with
  | none => (st, some .unknownModule)
  | some m =>
  let myCons := connectionsOf st selected.uid
  if 1 < myCons.length then (st, some .rotationLocked)
  else
  let next := nextRotation m.rotations selected.rot
  match myCons with
  | [] =>
    let u2 : PlacedUnit := { selected with rot := next }
    let b2 := bbox u2 m
    if st.units.any (fun u =>
        !(decide (u.uid = u2.uid)) &&
        (match getModuleIn cat u.moduleId with
         | none => false
         | some mu => overlaps b2 (bbox u mu))) then
      (st, some .overlap)
    else
      ({ st with units := st.units.map (fun u => if u.uid = u2.uid then u2 else u) },
       none)
  | conn :: _ =>
    let otherUid := if conn.aUid = selected.uid then conn.bUid else conn.aUid
    let myConnId := if conn.aUid = selected.uid then conn.aConn else conn.bConn
    let otherConnId := if conn.aUid = selected.uid then conn.bConn else conn.aConn
    match findUnit st otherUid with
    | none => (st, some .unknownUnit)
    | some other =>
    match getModuleIn cat other.moduleId with
    | none => (st, some .unknownModule)
    | some otherMod =>
    match m.connectors.find? (fun c => decide (c.id = myConnId)),
          otherMod.connectors.find? (fun c => decide (c.id = otherConnId)) with
    | some myDef, some otherDef =>
      let otherW := connectorWorld other otherMod otherDef
      let myLocal := rotatePoint myDef.x myDef.y m.widthFt m.depthFt next
      let snapped : PlacedUnit :=
        { selected with
          rot := next
          xFt := otherW.x - myLocal.1
          yFt := otherW.y - myLocal.2 }
      let bSnap := bbox snapped m
      if st.units.any (fun u =>
          !(decide (u.uid = snapped.uid)) &&
          (match getModuleIn cat u.moduleId with
           | none => false
           | some mu => overlaps bSnap (bbox u mu))) then
        (st, some .overlap)
      else
        ({ st with
           units := st.units.map (fun u => if u.uid = snapped.uid then snapped else u) },
         none)
    | _, _ => (st, some .unknownConnector)

/-- The `newExtras` computation of `toggleExtra`: remove the id if present
(`Array.filter`), append it otherwise. -/
def toggledExtras (currentExtras : List String) (extraId : String) : List String :=
  if extraId ∈ currentExtras then
    currentExtras.filter (fun id => decide (id ≠ extraId))
  else currentExtras ++ [extraId]

/-- Embeds `toggleExtra` from `StableConfigurator.tsx`. -/
def toggleExtra (st : Layout) (selectedUid extraId : String) : Layout :=
  match findUnit st selectedUid with
  | none => st
  | some selected =>
    let newExtras := toggledExtras selected.selectedExtras extraId
    { st with units := st.units.map (fun u =>
        if u.uid = selected.uid then { u with selectedExtras := newExtras } else u) }

/-- Embeds `deleteUnit` from `StableConfigurator.tsx`. -/
def deleteUnit (st : Layout) (uid : String) : Layout × Option LayoutError :=
  if st.units.length = 1 then (st, some .lastUnit)
  else
    ({ units := st.units.filter (fun u => decide (u.uid ≠ uid)),
       connections := st.connections.filter (fun c =>
         decide (c.aUid ≠ uid ∧ c.bUid ≠ uid)) }, none)

/-- Rotation advanced by 90° clockwise (`(u.rot + 90) % 360` in
`rotateLayout`). -/
def rotPlus90 : Rotation → Rotation
  | .r0 => .r90
  | .r90 => .r180
  | .r180 => .r270
  | .r270 => .r0

/-- Resolves each placed unit's module; `none` models the exception the
source throws (before any mutation) when a module id is unknown. -/
def resolveUnits (cat : List ModuleDef) : List PlacedUnit →
    Option (List (PlacedUnit × ModuleDef))
  | [] => some []
  | u :: us =>
    match getModuleIn cat u.moduleId, resolveUnits cat us with
    | some m, some rest => some ((u, m) :: rest)
    | _, _ => none

/-- Area weight of a unit in `rotateLayout` (`b.w * b.d`). -/
def areaOf (um : PlacedUnit × ModuleDef) : ℚ :=
  let b := bbox um.1 um.2
  b.w * b.d

/-- Bounding-box centre of a unit, used by `rotateLayout`. -/
def unitCenter (um : PlacedUnit × ModuleDef) : ℚ × ℚ :=
  let b := bbox um.1 um.2
  (b.x + b.w / 2, b.y + b.d / 2)

/-- One unit of `rotateLayout`: rotate the unit's centre 90° clockwise about
the layout centroid (`cos 90° = 0`, `sin 90° = 1`, taken exactly), advance
the unit's rotation, and recover the origin from the new rotated extents. -/
def rotUnit90 (cx cy : ℚ) (um : PlacedUnit × ModuleDef) : PlacedUnit :=
  let c := unitCenter um
  let nx := cx + (c.1 - cx) * 0 - (c.2 - cy) * 1
  let ny := cy + (c.1 - cx) * 1 + (c.2 - cy) * 0
  let nrot := rotPlus90 um.1.rot
  let wd := rotatedSize um.2.widthFt um.2.depthFt nrot
  { um.1 with
    xFt := nx - wd.1 / 2
    yFt := ny - wd.2 / 2
    rot := nrot }

/-- Embeds `rotateLayout` from `StableConfigurator.tsx`: rotates the whole layout
90° clockwise about the area-weighted centroid of the units' bounding
boxes.  Connections are not touched. -/
def rotateLayout (cat : List ModuleDef) (st : Layout) : Layout :=
  if st.units.length = 0 then st
  else
    match resolveUnits cat st.units with
    | none => st
    | some L =>
      let totalWeight := (L.map areaOf).sum
      let cx := (L.map (fun um => (unitCenter um).1 * areaOf um)).sum / totalWeight
      let cy := (L.map (fun um => (unitCenter um).2 * areaOf um)).sum / totalWeight
      { units := L.map (rotUnit90 cx cy), connections := st.connections }

/-- The initial layout of the configurator: one `stable_12x12` at the
origin, rotation 0, no connections. -/
def oneStable : Layout := ⟨[⟨"u1", "stable_12x12", 0, 0, .r0, []⟩], []⟩

def stable12 : ModuleDef :=
  ⟨"stable_12x12", .stable, 12, 12, allRots, makeStraightConnectors 12 12⟩

/-- Modelled from the spec (§4.4): the interior overlap of two boxes
exceeds `t` on both axes.  Used to compare the code's validity check with
the spec's tolerance rule. -/
def interiorOverlapExceeds (t : ℚ) (a b : Box) : Prop :=
  t < min (a.x + a.w) (b.x + b.w) - max a.x b.x ∧
  t < min (a.y + a.d) (b.y + b.d) - max a.y b.y

instance (t : ℚ) (a b : Box) : Decidable (interiorOverlapExceeds t a b) := by
  unfold interiorOverlapExceeds; infer_instance

def allKinds : List ModuleKind := [.stable, .shelter, .corner, .tack_room]

def extrasLayout : Layout :=
  ⟨[⟨"u1", "stable_12x12", 0, 0, .r0, ["window", "partition"]⟩,
    ⟨"u2", "stable_12x12", 20, 0, .r0, []⟩], []⟩

def twoStables : Layout :=
  ⟨[⟨"u1", "stable_12x12", 0, 0, .r0, []⟩, ⟨"u2", "stable_12x12", 12, 0, .r0, []⟩],
   [⟨"u1", "E", "u2", "W"⟩]⟩

def u1ext : PlacedUnit := ⟨"u1", "stable_12x12", 0, 0, .r0, ["window", "partition"]⟩

/-- Three `stable_12x12` units with the middle one doubly connected: the
fixture for the rotation-lock scenarios. -/
def chainThree : Layout :=
  ⟨[⟨"A", "stable_12x12", 0, 0, .r0, []⟩, ⟨"B", "stable_12x12", 12, 0, .r0, []⟩,
    ⟨"C", "stable_12x12", -12, 0, .r0, []⟩],
   [⟨"A", "E", "B", "W"⟩, ⟨"A", "W", "C", "E"⟩]⟩

/-- The re-snapped unit produced by `rotateSelected` in the
single-connection case: next rotation, origin solved so that the unit's
matched connector stays on the other endpoint's connector world position. -/
def rotSnapped (sel : PlacedUnit) (m : ModuleDef) (other : PlacedUnit)
    (otherMod : ModuleDef) (myDef otherDef : Connector) : PlacedUnit :=
  let next := nextRotation m.rotations sel.rot
  let otherW := connectorWorld other otherMod otherDef
  let myLocal := rotatePoint myDef.x myDef.y m.widthFt m.depthFt next
  { sel with
    rot := next
    xFt := otherW.x - myLocal.1
    yFt := otherW.y - myLocal.2 }

def cMod : ModuleDef := ⟨"cbig", .stable, 12, 12, allRots, [⟨"E", 12, 6, 1, 0⟩]⟩

def dMod : ModuleDef := ⟨"csmall", .stable, 2, 2, allRots, [⟨"W", 0, 2, -1, 0⟩]⟩

def rotCat : List ModuleDef := [cMod, dMod]

def u2small : PlacedUnit := ⟨"u2", "csmall", 12, 4, .r0, []⟩

def rotLayout : Layout :=
  ⟨[⟨"u1", "cbig", 0, 0, .r0, []⟩, u2small], [⟨"u1", "E", "u2", "W"⟩]⟩

/-- A hypothetical catalog whose connector ids carry the role labels that
`canConnect` tests for, so that the candidate search can succeed; the spec
treats the catalog as an injected dependency. -/
def demoMod : ModuleDef :=
  ⟨"demo", .stable, 12, 12, [.r0], [⟨"LEFT", 0, 6, -1, 0⟩, ⟨"RIGHT", 12, 6, 1, 0⟩]⟩

def demoCat : List ModuleDef := [demoMod]

def demoU1 : PlacedUnit := ⟨"u1", "demo", 0, 0, .r0, []⟩

def demoSt : Layout := ⟨[demoU1], []⟩

/-- Claim C7 (`C7`): each geometry-kernel map is cyclic of order 4 at 90°. -/
theorem c7_geometry_kernel_order_four :
    (∀ w d : ℚ,
      (rotatedSize (rotatedSize (rotatedSize (rotatedSize w d .r90).1
        (rotatedSize w d .r90).2 .r90).1
        (rotatedSize (rotatedSize w d .r90).1 (rotatedSize w d .r90).2 .r90).2 .r90).1
        (rotatedSize (rotatedSize (rotatedSize w d .r90).1
          (rotatedSize w d .r90).2 .r90).1
          (rotatedSize (rotatedSize w d .r90).1 (rotatedSize w d .r90).2 .r90).2 .r90).2
        .r90) = (w, d)) ∧
    (∀ x y w d : ℚ,
      (let p1 := rotatePoint x y w d .r90
       let p2 := rotatePoint p1.1 p1.2 d w .r90
       let p3 := rotatePoint p2.1 p2.2 w d .r90
       rotatePoint p3.1 p3.2 d w .r90) = (x, y)) ∧
    (∀ nx ny : ℚ,
      (let v1 := rotateVec nx ny .r90
       let v2 := rotateVec v1.1 v1.2 .r90
       let v3 := rotateVec v2.1 v2.2 .r90
       rotateVec v3.1 v3.2 .r90) = (nx, ny)) := by
  refine ⟨fun w d => ?_, fun x y w d => ?_, fun nx ny => ?_⟩ <;>
    simp [rotatedSize, rotatePoint, rotateVec]

/-- The strict `overlaps` test, as a proposition. -/
theorem overlaps_eq_true_iff (a b : Box) :
    overlaps a b = true ↔
    (b.x < a.x + a.w ∧ a.x < b.x + b.w ∧ b.y < a.y + a.d ∧ a.y < b.y + b.d) := by
  simp only [overlaps, Bool.not_eq_true', Bool.or_eq_false_iff,
    decide_eq_false_iff_not, not_le]
  tauto

/-- For boxes of positive extent, the strict `overlaps` test is the same as
positive interior overlap on both axes. -/
theorem overlaps_iff_pos (a b : Box) (haw : 0 < a.w) (hbw : 0 < b.w)
    (had : 0 < a.d) (hbd : 0 < b.d) :
    overlaps a b = true ↔ interiorOverlapExceeds 0 a b := by
  rw [overlaps_eq_true_iff]
  unfold interiorOverlapExceeds
  simp only [sub_pos, lt_min_iff, max_lt_iff]
  constructor
  · rintro ⟨h1, h2, h3, h4⟩
    refine ⟨⟨⟨?_, ?_⟩, ?_, ?_⟩, ⟨?_, ?_⟩, ?_, ?_⟩ <;> linarith
  · rintro ⟨⟨⟨g1, g2⟩, g3, g4⟩, ⟨g5, g6⟩, g7, g8⟩
    exact ⟨g2, g3, g6, g7⟩

theorem getModuleIn_mem {cat : List ModuleDef} {id : String} {m : ModuleDef}
    (h : getModuleIn cat id = some m) : m ∈ cat :=
  List.mem_of_find?_eq_some h

/-- A module of positive footprint keeps positive bounding-box extents
under every rotation. -/
theorem bbox_pos (u : PlacedUnit) (m : ModuleDef) (hw : 0 < m.widthFt)
    (hd : 0 < m.depthFt) : 0 < (bbox u m).w ∧ 0 < (bbox u m).d := by
  unfold bbox rotatedSize
  split <;> exact ⟨by assumption, by assumption⟩

unseal Rat.add Rat.mul Rat.inv Rat.sub Rat.ofScientific in
/-- Claim C1 (`C1`) (code bug): on the spec scenario — a single `stable_12x12` at the
origin, rotation 0, no connections — attaching a second `stable_12x12` is
rejected by the code with no compatible connector and the layout is left at
one unit and zero connections, because `canConnect` compares connector ids
against `LEFT`/`RIGHT`/`DOOR_SIDE_*`/`BACK` while every catalog connector
id is one of `W`/`E`/`N`/`S` (last conjunct: `canConnect` is false on every
kind pair for all directional ids). -/
theorem c1_attach_scenario_rejected_by_code :
    attach MODULES oneStable "u2" "stable_12x12" "E" "u1" =
      (oneStable, some LayoutError.noCompatibleConnector) ∧
    oneStable.units.length = 1 ∧ oneStable.connections.length = 0 ∧
    ((["W", "E", "N", "S"].all fun s => ["W", "E", "N", "S"].all fun t =>
      allKinds.all fun k1 => allKinds.all fun k2 => !canConnect s k1 t k2) = true) :=
  ⟨by decide, by decide, by decide, by decide⟩

unseal Rat.add Rat.mul Rat.inv Rat.sub Rat.ofScientific in
/-- Claim C2 (`C2`) counterexample: a candidate `stable_12x12` at x = 11.7 ft overlaps
the unit at the origin by only 0.3 ft on the x-axis — below the claimed
0.5 ft tolerance on both axes — yet the validity check rejects it. -/
theorem c2_counterexample_tolerance_not_applied :
    isValidPosition MODULES oneStable.units "stable_12x12" (117/10) 0 .r0 none
      = false ∧
    getModuleIn MODULES "stable_12x12" = some stable12 ∧
    ¬ interiorOverlapExceeds (1/2)
      (bbox ⟨"test", "stable_12x12", 117/10, 0, .r0, []⟩ stable12)
      (bbox ⟨"u1", "stable_12x12", 0, 0, .r0, []⟩ stable12) :=
  ⟨by decide, by decide, by decide⟩

/-- Claim C2 (`C2`) (amended): `isValidPosition` rejects a placement iff the bounding
box of some existing unit (other than the excluded one) has *strictly
positive* interior overlap with the candidate's box on both axes; merely
touching boxes are accepted, but no 0.5 ft tolerance is applied — that
tolerance exists only in `attach`'s inline overlap check. -/
theorem c2_amended_validity_iff_strict_overlap (cat : List ModuleDef)
    (units : List PlacedUnit) (moduleId : String) (x y : ℚ) (rot : Rotation)
    (excludeUid : Option String) (m : ModuleDef)
    (hm : getModuleIn cat moduleId = some m)
    (hpos : ∀ md ∈ cat, 0 < md.widthFt ∧ 0 < md.depthFt)
    (hres : ∀ u ∈ units, ∃ mu, getModuleIn cat u.moduleId = some mu) :
    isValidPosition cat units moduleId x y rot excludeUid = false ↔
    ∃ u ∈ units, excludeUid ≠ some u.uid ∧ ∃ mu,
      getModuleIn cat u.moduleId = some mu ∧
      interiorOverlapExceeds 0 (bbox ⟨"test", moduleId, x, y, rot, []⟩ m)
        (bbox u mu) := by
  unfold isValidPosition
  rw [hm]
  simp only [Bool.not_eq_false', List.any_eq_true]
  obtain ⟨hmw, hmd⟩ := hpos m (getModuleIn_mem hm)
  constructor
  · rintro ⟨u, hu, hfu⟩
    obtain ⟨mu, hmu⟩ := hres u hu
    rw [hmu] at hfu
    simp only [Bool.and_eq_true, Bool.not_eq_true', decide_eq_false_iff_not] at hfu
    obtain ⟨hex, hov⟩ := hfu
    obtain ⟨huw, hud⟩ := hpos mu (getModuleIn_mem hmu)
    obtain ⟨hbw, hbd⟩ := bbox_pos u mu huw hud
    obtain ⟨hcw, hcd⟩ := bbox_pos ⟨"test", moduleId, x, y, rot, []⟩ m hmw hmd
    exact ⟨u, hu, hex, mu, hmu,
      (overlaps_iff_pos _ _ hcw hbw hcd hbd).mp hov⟩
  · rintro ⟨u, hu, hex, mu, hmu, hio⟩
    refine ⟨u, hu, ?_⟩
    rw [hmu]
    simp only [Bool.and_eq_true, Bool.not_eq_true', decide_eq_false_iff_not]
    obtain ⟨huw, hud⟩ := hpos mu (getModuleIn_mem hmu)
    obtain ⟨hbw, hbd⟩ := bbox_pos u mu huw hud
    obtain ⟨hcw, hcd⟩ := bbox_pos ⟨"test", moduleId, x, y, rot, []⟩ m hmw hmd
    exact ⟨hex, (overlaps_iff_pos _ _ hcw hbw hcd hbd).mpr hio⟩

unseal Rat.add Rat.mul Rat.inv Rat.sub Rat.ofScientific in
/-- Witness for the amended `C2` statement: the counterexample placement,
through the amended equivalence, is rejected exactly because the 0.3 ft
x-overlap is strictly positive. -/
theorem c2_amended_witness :
    getModuleIn MODULES "stable_12x12" = some stable12 ∧
    (isValidPosition MODULES oneStable.units "stable_12x12" (117/10) 0 .r0 none
        = false ↔
      ∃ u ∈ oneStable.units, (none : Option String) ≠ some u.uid ∧ ∃ mu,
        getModuleIn MODULES u.moduleId = some mu ∧
        interiorOverlapExceeds 0
          (bbox ⟨"test", "stable_12x12", 117/10, 0, .r0, []⟩ stable12)
          (bbox u mu)) :=
  ⟨by decide,
    c2_amended_validity_iff_strict_overlap MODULES oneStable.units
      "stable_12x12" (117/10) 0 .r0 none stable12 (by decide) (by decide)
      (fun u hu => by
        simp only [oneStable, List.mem_singleton] at hu
        subst hu
        exact ⟨stable12, by decide⟩)⟩

theorem length_filter_not_add_countP {α : Type} (l : List α) (p : α → Bool) :
    (l.filter (fun a => !p a)).length + l.countP p = l.length := by
  induction l with
  | nil => simp
  | cons a l ih =>
    by_cases h : p a = true <;>
      simp [List.filter_cons, List.countP_cons, h] <;> omega

/-- Claim C9 (`C9`): deleting the only remaining unit fails with `LastUnit` and changes
nothing; with at least two units, `deleteUnit` removes exactly the units
with the given id and exactly the connections referencing it, leaving every
other unit and connection untouched. -/
theorem c9_delete_unit (st : Layout) (uid : String) :
    (st.units.length = 1 → deleteUnit st uid = (st, some LayoutError.lastUnit)) ∧
    (2 ≤ st.units.length →
      (deleteUnit st uid).2 = none ∧
      (∀ u : PlacedUnit,
        u ∈ (deleteUnit st uid).1.units ↔ u ∈ st.units ∧ u.uid ≠ uid) ∧
      (∀ c : Connection,
        c ∈ (deleteUnit st uid).1.connections ↔
          c ∈ st.connections ∧ c.aUid ≠ uid ∧ c.bUid ≠ uid) ∧
      (st.units.countP (fun u => decide (u.uid = uid)) = 1 →
        (deleteUnit st uid).1.units.length + 1 = st.units.length)) := by
  constructor
  · intro h1
    unfold deleteUnit
    rw [if_pos h1]
  · intro h2
    have hne : ¬ st.units.length = 1 := by omega
    unfold deleteUnit
    rw [if_neg hne]
    refine ⟨rfl, ?_, ?_, ?_⟩
    · intro u; simp [List.mem_filter]
    · intro c; simp [List.mem_filter]
    · intro hcount
      have hlen := length_filter_not_add_countP st.units
        (fun u => decide (u.uid = uid))
      simp only [decide_not] at *
      omega

unseal Rat.add Rat.mul Rat.inv Rat.sub Rat.ofScientific in
/-- Claim C10 (`C10`) counterexample: toggling `window` twice on a unit whose extras
list is `["window", "partition"]` yields `["partition", "window"]` — the
membership is restored but the list, and hence the layout state, is not
equal to the original. -/
theorem c10_counterexample_toggle_twice_reorders :
    toggleExtra (toggleExtra extrasLayout "u1" "window") "u1" "window" ≠
      extrasLayout ∧
    (toggleExtra (toggleExtra extrasLayout "u1" "window") "u1" "window").units.map
        (fun u => u.selectedExtras) = [["partition", "window"], []] :=
  ⟨by decide, by decide⟩

theorem mem_toggledExtras_iff (l : List String) (e x : String) :
    x ∈ toggledExtras l e ↔ ((x ∈ l ∧ x ≠ e) ∨ (x = e ∧ e ∉ l)) := by
  unfold toggledExtras
  by_cases he : e ∈ l <;> simp [he, List.mem_filter] <;> tauto

theorem mem_toggledExtras_twice_iff (l : List String) (e x : String) :
    x ∈ toggledExtras (toggledExtras l e) e ↔ x ∈ l := by
  have h1 := mem_toggledExtras_iff (toggledExtras l e) e x
  have h2 := mem_toggledExtras_iff l e x
  have h3 := mem_toggledExtras_iff l e e
  by_cases hx : x = e <;> subst_eqs <;> tauto

theorem findUnit_map_of_uid_preserved (units : List PlacedUnit) (uid : String)
    (f : PlacedUnit → PlacedUnit) (hf : ∀ u, (f u).uid = u.uid)
    (connections : List Connection) :
    findUnit ⟨units.map f, connections⟩ uid =
      (findUnit ⟨units, connections⟩ uid).map f := by
  unfold findUnit
  rw [List.find?_map]
  have hcomp : ((fun u => decide (u.uid = uid)) ∘ f) =
      (fun u : PlacedUnit => decide (u.uid = uid)) := by
    funext u
    simp [Function.comp, hf]
  rw [hcomp]

theorem forall₂_map_self {α : Type} (R : α → α → Prop) (f : α → α)
    (l : List α) (h : ∀ a ∈ l, R (f a) a) : List.Forall₂ R (l.map f) l := by
  induction l with
  | nil => constructor
  | cons a l ih =>
    exact List.Forall₂.cons (h a (.head _)) (ih fun b hb => h b (.tail _ hb))

theorem mem_singleton_of_filter_le_one {α : Type} (l : List α) (p : α → Bool)
    (h : (l.filter p).length ≤ 1) (a b : α) (ha : a ∈ l) (hb : b ∈ l)
    (hpa : p a = true) (hpb : p b = true) : a = b := by
  have ha' : a ∈ l.filter p := List.mem_filter.mpr ⟨ha, hpa⟩
  have hb' : b ∈ l.filter p := List.mem_filter.mpr ⟨hb, hpb⟩
  cases hfil : l.filter p with
  | nil => rw [hfil] at ha'; simp at ha'
  | cons c cs =>
    rw [hfil] at ha' hb' h
    simp only [List.length_cons] at h
    have hcs : cs = [] := List.length_eq_zero.mp (by omega)
    subst hcs
    simp only [List.mem_singleton] at ha' hb'
    rw [ha', hb']

theorem toggleExtra_eq_of_find (st : Layout) (selUid extraId : String)
    (sel : PlacedUnit) (h : findUnit st selUid = some sel) :
    toggleExtra st selUid extraId =
      { st with units := st.units.map (fun u =>
          if u.uid = sel.uid then
            { u with selectedExtras := toggledExtras sel.selectedExtras extraId }
          else u) } := by
  unfold toggleExtra
  rw [h]

/-- Claim C10 (`C10`) (amended): a single `toggleExtra` changes only the selected
unit's `selectedExtras` — adding the id exactly when absent, removing every
occurrence when present — leaving connections and all other units
untouched; toggling twice restores every unit up to `selectedExtras`
membership (the list may be reordered, as the counterexample shows), the
selected unit's id being unique in the layout. -/
theorem c10_amended_toggle_extra (st : Layout) (selUid extraId : String)
    (sel : PlacedUnit) (hfind : findUnit st selUid = some sel)
    (huniq : (st.units.filter (fun u => decide (u.uid = selUid))).length ≤ 1) :
    ((toggleExtra st selUid extraId).connections = st.connections ∧
     (∀ u ∈ st.units, u.uid ≠ selUid → u ∈ (toggleExtra st selUid extraId).units) ∧
     (∃ sel1, findUnit (toggleExtra st selUid extraId) selUid = some sel1 ∧
       sel1.uid = sel.uid ∧ sel1.moduleId = sel.moduleId ∧
       sel1.xFt = sel.xFt ∧ sel1.yFt = sel.yFt ∧ sel1.rot = sel.rot ∧
       (∀ x, x ∈ sel1.selectedExtras ↔
         ((x ∈ sel.selectedExtras ∧ x ≠ extraId) ∨
          (x = extraId ∧ extraId ∉ sel.selectedExtras))))) ∧
    ((toggleExtra (toggleExtra st selUid extraId) selUid extraId).connections =
       st.connections ∧
     List.Forall₂ (fun u v : PlacedUnit =>
        u.uid = v.uid ∧ u.moduleId = v.moduleId ∧ u.xFt = v.xFt ∧
        u.yFt = v.yFt ∧ u.rot = v.rot ∧
        (∀ x, x ∈ u.selectedExtras ↔ x ∈ v.selectedExtras))
       (toggleExtra (toggleExtra st selUid extraId) selUid extraId).units
       st.units) := by
  have hseluid : sel.uid = selUid := by
    have h := List.find?_some hfind
    simpa using h
  have hselmem : sel ∈ st.units := List.mem_of_find?_eq_some hfind
  have hst1 : toggleExtra st selUid extraId =
      { st with units := st.units.map (fun u =>
          if u.uid = sel.uid then
            { u with selectedExtras := toggledExtras sel.selectedExtras extraId }
          else u) } := toggleExtra_eq_of_find st selUid extraId sel hfind
  have hf1 : ∀ u : PlacedUnit,
      ((fun u : PlacedUnit => if u.uid = sel.uid then
          { u with selectedExtras := toggledExtras sel.selectedExtras extraId }
        else u) u).uid = u.uid := by
    intro u
    by_cases h : u.uid = sel.uid <;> simp [h]
  have hfind1 : findUnit (toggleExtra st selUid extraId) selUid =
      some { sel with selectedExtras := toggledExtras sel.selectedExtras extraId } := by
    rw [hst1]
    have hmap := findUnit_map_of_uid_preserved st.units selUid _ hf1 st.connections
    have hre : findUnit ⟨st.units, st.connections⟩ selUid = some sel := hfind
    rw [show ({ st with units := st.units.map (fun u : PlacedUnit =>
        if u.uid = sel.uid then
          { u with selectedExtras := toggledExtras sel.selectedExtras extraId }
        else u) } : Layout) = ⟨st.units.map _, st.connections⟩ from rfl]
    rw [hmap, hre]
    simp
  have hst2 : toggleExtra (toggleExtra st selUid extraId) selUid extraId =
      { toggleExtra st selUid extraId with
        units := (toggleExtra st selUid extraId).units.map (fun u =>
          if u.uid = sel.uid then
            { u with selectedExtras :=
                toggledExtras (toggledExtras sel.selectedExtras extraId) extraId }
          else u) } :=
    toggleExtra_eq_of_find (toggleExtra st selUid extraId) selUid extraId _ hfind1
  have huniq' : ∀ u ∈ st.units, u.uid = sel.uid → u = sel := by
    intro u hu he
    exact mem_singleton_of_filter_le_one st.units
      (fun u => decide (u.uid = selUid)) huniq u sel hu hselmem
      (by simp [he, hseluid]) (by simp [hseluid])
  refine ⟨⟨?_, ?_, ?_⟩, ?_, ?_⟩
  · rw [hst1]
  · intro u hu hne
    rw [hst1]
    refine List.mem_map.mpr ⟨u, hu, ?_⟩
    have : ¬ u.uid = sel.uid := by rw [hseluid]; exact hne
    simp [this]
  · refine ⟨{ sel with selectedExtras := toggledExtras sel.selectedExtras extraId },
      hfind1, rfl, rfl, rfl, rfl, rfl, ?_⟩
    intro x
    exact mem_toggledExtras_iff sel.selectedExtras extraId x
  · rw [hst2, hst1]
  · rw [hst2, hst1]
    simp only [List.map_map]
    refine forall₂_map_self _ _ _ ?_
    intro a ha
    by_cases h : a.uid = sel.uid
    · have haeq : a = sel := huniq' a ha h
      subst haeq
      simp [Function.comp, mem_toggledExtras_twice_iff]
    · simp [Function.comp, if_neg h]

/-- Witness for `C9`, at a one-unit layout (deletion refused) and at a
two-unit layout (unit `u2` and its connection removed). -/
theorem c9_delete_unit_witness :
    (oneStable.units.length = 1 ∧
      deleteUnit oneStable "u1" = (oneStable, some LayoutError.lastUnit)) ∧
    (2 ≤ twoStables.units.length ∧
      ((deleteUnit twoStables "u2").2 = none ∧
       (∀ u : PlacedUnit,
         u ∈ (deleteUnit twoStables "u2").1.units ↔
           u ∈ twoStables.units ∧ u.uid ≠ "u2") ∧
       (∀ c : Connection,
         c ∈ (deleteUnit twoStables "u2").1.connections ↔
           c ∈ twoStables.connections ∧ c.aUid ≠ "u2" ∧ c.bUid ≠ "u2") ∧
       (twoStables.units.countP (fun u => decide (u.uid = "u2")) = 1 →
         (deleteUnit twoStables "u2").1.units.length + 1 =
           twoStables.units.length))) :=
  ⟨⟨by decide, (c9_delete_unit oneStable "u1").1 (by decide)⟩,
   ⟨by decide, (c9_delete_unit twoStables "u2").2 (by decide)⟩⟩

/-- Witness for the amended `C10` statement at the counterexample layout. -/
theorem c10_amended_witness :
    (findUnit extrasLayout "u1" = some u1ext ∧
     (extrasLayout.units.filter (fun u => decide (u.uid = "u1"))).length ≤ 1) ∧
    (((toggleExtra extrasLayout "u1" "window").connections =
        extrasLayout.connections ∧
      (∀ u ∈ extrasLayout.units, u.uid ≠ "u1" →
        u ∈ (toggleExtra extrasLayout "u1" "window").units) ∧
      (∃ sel1, findUnit (toggleExtra extrasLayout "u1" "window") "u1" = some sel1 ∧
        sel1.uid = u1ext.uid ∧ sel1.moduleId = u1ext.moduleId ∧
        sel1.xFt = u1ext.xFt ∧ sel1.yFt = u1ext.yFt ∧ sel1.rot = u1ext.rot ∧
        (∀ x, x ∈ sel1.selectedExtras ↔
          ((x ∈ u1ext.selectedExtras ∧ x ≠ "window") ∨
           (x = "window" ∧ "window" ∉ u1ext.selectedExtras))))) ∧
     ((toggleExtra (toggleExtra extrasLayout "u1" "window") "u1" "window").connections =
        extrasLayout.connections ∧
      List.Forall₂ (fun u v : PlacedUnit =>
         u.uid = v.uid ∧ u.moduleId = v.moduleId ∧ u.xFt = v.xFt ∧
         u.yFt = v.yFt ∧ u.rot = v.rot ∧
         (∀ x, x ∈ u.selectedExtras ↔ x ∈ v.selectedExtras))
        (toggleExtra (toggleExtra extrasLayout "u1" "window") "u1" "window").units
        extrasLayout.units)) :=
  ⟨⟨by decide, by decide⟩,
   c10_amended_toggle_extra extrasLayout "u1" "window" u1ext (by decide) (by decide)⟩

theorem attach_fail_unchanged (cat : List ModuleDef) (st : Layout)
    (newUid moduleId targetConn sourceUid : String) (st' : Layout)
    (e : LayoutError)
    (h : attach cat st newUid moduleId targetConn sourceUid = (st', some e)) :
    st' = st := by
  unfold attach at h
  repeat'
    first
    | split at h
    | (rw [ite_eq_iff] at h
       rcases h with ⟨hc, h⟩ | ⟨hc, h⟩)
  all_goals try simp_all
  all_goals repeat'
    first
    | split at h
    | (rw [ite_eq_iff] at h
       rcases h with ⟨hc2, h⟩ | ⟨hc2, h⟩)
  all_goals try simp_all
  all_goals repeat'
    first
    | split at h
    | (rw [ite_eq_iff] at h
       rcases h with ⟨hc3, h⟩ | ⟨hc3, h⟩)
  all_goals simp_all

theorem connectExistingUnit_fail_unchanged (cat : List ModuleDef) (st : Layout)
    (unitUid targetConn targetUnitUid : String) (st' : Layout) (e : LayoutError)
    (h : connectExistingUnit cat st unitUid targetConn targetUnitUid =
      (st', some e)) : st' = st := by
  unfold connectExistingUnit at h
  repeat'
    first
    | split at h
    | (rw [ite_eq_iff] at h
       rcases h with ⟨hc, h⟩ | ⟨hc, h⟩)
  all_goals try simp_all
  all_goals repeat'
    first
    | split at h
    | (rw [ite_eq_iff] at h
       rcases h with ⟨hc2, h⟩ | ⟨hc2, h⟩)
  all_goals try simp_all
  all_goals repeat'
    first
    | split at h
    | (rw [ite_eq_iff] at h
       rcases h with ⟨hc3, h⟩ | ⟨hc3, h⟩)
  all_goals simp_all

theorem placeModuleFree_fail_unchanged (cat : List ModuleDef) (st : Layout)
    (newUid moduleId : String) (x y : ℚ) (st' : Layout) (e : LayoutError)
    (h : placeModuleFree cat st newUid moduleId x y = (st', some e)) :
    st' = st := by
  unfold placeModuleFree at h
  repeat'
    first
    | split at h
    | (rw [ite_eq_iff] at h
       rcases h with ⟨hc, h⟩ | ⟨hc, h⟩)
  all_goals try simp_all
  all_goals repeat'
    first
    | split at h
    | (rw [ite_eq_iff] at h
       rcases h with ⟨hc2, h⟩ | ⟨hc2, h⟩)
  all_goals try simp_all
  all_goals repeat'
    first
    | split at h
    | (rw [ite_eq_iff] at h
       rcases h with ⟨hc3, h⟩ | ⟨hc3, h⟩)
  all_goals simp_all

theorem rotateSelected_fail_unchanged (cat : List ModuleDef) (st : Layout)
    (selectedUid : String) (st' : Layout) (e : LayoutError)
    (h : rotateSelected cat st selectedUid = (st', some e)) : st' = st := by
  unfold rotateSelected at h
  repeat'
    first
    | split at h
    | (rw [ite_eq_iff] at h
       rcases h with ⟨hc, h⟩ | ⟨hc, h⟩)
  all_goals try simp_all
  all_goals repeat'
    first
    | split at h
    | (rw [ite_eq_iff] at h
       rcases h with ⟨hc2, h⟩ | ⟨hc2, h⟩)
  all_goals try simp_all
  all_goals repeat'
    first
    | split at h
    | (rw [ite_eq_iff] at h
       rcases h with ⟨hc3, h⟩ | ⟨hc3, h⟩)
  all_goals simp_all

theorem deleteUnit_fail_unchanged (st : Layout) (uid : String) (st' : Layout)
    (e : LayoutError) (h : deleteUnit st uid = (st', some e)) : st' = st := by
  unfold deleteUnit at h
  repeat'
    first
    | split at h
    | (rw [ite_eq_iff] at h
       rcases h with ⟨hc, h⟩ | ⟨hc, h⟩)
  all_goals try simp_all
  all_goals repeat'
    first
    | split at h
    | (rw [ite_eq_iff] at h
       rcases h with ⟨hc2, h⟩ | ⟨hc2, h⟩)
  all_goals try simp_all
  all_goals repeat'
    first
    | split at h
    | (rw [ite_eq_iff] at h
       rcases h with ⟨hc3, h⟩ | ⟨hc3, h⟩)
  all_goals simp_all

/-- Claim C3 (`C3`): every public mutating operation — `attach`,
`connectExistingUnit` (reconnect), `placeModuleFree`, `rotateSelected` and
`deleteUnit` — is all-or-nothing: whenever the call reports an error, the
returned layout (both the unit set and the connection set) is exactly the
input layout. -/
theorem c3_all_or_nothing :
    (∀ (cat : List ModuleDef) (st : Layout)
        (newUid moduleId targetConn sourceUid : String) (st' : Layout)
        (e : LayoutError),
      attach cat st newUid moduleId targetConn sourceUid = (st', some e) →
        st' = st) ∧
    (∀ (cat : List ModuleDef) (st : Layout)
        (unitUid targetConn targetUnitUid : String) (st' : Layout)
        (e : LayoutError),
      connectExistingUnit cat st unitUid targetConn targetUnitUid =
        (st', some e) → st' = st) ∧
    (∀ (cat : List ModuleDef) (st : Layout) (newUid moduleId : String)
        (x y : ℚ) (st' : Layout) (e : LayoutError),
      placeModuleFree cat st newUid moduleId x y = (st', some e) → st' = st) ∧
    (∀ (cat : List ModuleDef) (st : Layout) (selectedUid : String)
        (st' : Layout) (e : LayoutError),
      rotateSelected cat st selectedUid = (st', some e) → st' = st) ∧
    (∀ (st : Layout) (uid : String) (st' : Layout) (e : LayoutError),
      deleteUnit st uid = (st', some e) → st' = st) :=
  ⟨attach_fail_unchanged, connectExistingUnit_fail_unchanged,
   placeModuleFree_fail_unchanged, rotateSelected_fail_unchanged,
   deleteUnit_fail_unchanged⟩

unseal Rat.add Rat.mul Rat.inv Rat.sub Rat.ofScientific in
/-- Witness for `C3`: one concrete failing call per operation
(no compatible connector twice, overlap, rotation lock, last unit), each
leaving the layout untouched. -/
theorem c3_all_or_nothing_witness :
    (attach MODULES oneStable "u2" "stable_12x12" "E" "u1").1 = oneStable ∧
    (connectExistingUnit MODULES chainThree "C" "E" "B").1 = chainThree ∧
    (placeModuleFree MODULES oneStable "u2" "stable_12x12" 6 6).1 = oneStable ∧
    (rotateSelected MODULES chainThree "A").1 = chainThree ∧
    (deleteUnit oneStable "u1").1 = oneStable :=
  ⟨c3_all_or_nothing.1 MODULES oneStable "u2" "stable_12x12" "E" "u1" _
      LayoutError.noCompatibleConnector (by decide),
   c3_all_or_nothing.2.1 MODULES chainThree "C" "E" "B" _
      LayoutError.noCompatibleConnector (by decide),
   c3_all_or_nothing.2.2.1 MODULES oneStable "u2" "stable_12x12" 6 6 _
      LayoutError.overlap (by decide),
   c3_all_or_nothing.2.2.2.1 MODULES chainThree "A" _
      LayoutError.rotationLocked (by decide),
   c3_all_or_nothing.2.2.2.2 oneStable "u1" _
      LayoutError.lastUnit (by decide)⟩

/-- Claim C5 (`C5`): for a selected unit that exists and whose module resolves,
`rotateSelected` fails with `RotationLocked` exactly when the unit
participates in more than one connection, and on that failure the layout
is unchanged. -/
theorem c5_rotation_locked_iff (cat : List ModuleDef) (st : Layout)
    (selUid : String) (sel : PlacedUnit) (m : ModuleDef)
    (hfind : findUnit st selUid = some sel)
    (hm : getModuleIn cat sel.moduleId = some m) :
    ((rotateSelected cat st selUid).2 = some LayoutError.rotationLocked ↔
      1 < (connectionsOf st selUid).length) ∧
    ((rotateSelected cat st selUid).2 = some LayoutError.rotationLocked →
      (rotateSelected cat st selUid).1 = st) := by
  have hseluid : sel.uid = selUid := by simpa using List.find?_some hfind
  constructor
  · unfold rotateSelected
    simp only [hfind, hm, hseluid]
    constructor
    · intro h
      by_cases hlen : 1 < (connectionsOf st selUid).length
      · exact hlen
      · exfalso
        rw [if_neg hlen] at h
        repeat'
          first
          | split at h
          | (rw [ite_eq_iff] at h
             rcases h with ⟨hc, h⟩ | ⟨hc, h⟩)
        all_goals simp_all
    · intro hlen
      rw [if_pos hlen]
  · intro h
    have h2 : rotateSelected cat st selUid =
        ((rotateSelected cat st selUid).1, some LayoutError.rotationLocked) := by
      rw [← h]
    exact rotateSelected_fail_unchanged cat st selUid _ _ h2

unseal Rat.add Rat.mul Rat.inv Rat.sub Rat.ofScientific in
/-- Witness for `C5` at the doubly-connected unit `A` of `chainThree`. -/
theorem c5_rotation_locked_witness :
    (findUnit chainThree "A" = some ⟨"A", "stable_12x12", 0, 0, .r0, []⟩ ∧
     getModuleIn MODULES "stable_12x12" = some stable12) ∧
    (((rotateSelected MODULES chainThree "A").2 =
        some LayoutError.rotationLocked ↔
      1 < (connectionsOf chainThree "A").length) ∧
     ((rotateSelected MODULES chainThree "A").2 =
        some LayoutError.rotationLocked →
      (rotateSelected MODULES chainThree "A").1 = chainThree)) :=
  ⟨⟨by decide, by decide⟩,
   c5_rotation_locked_iff MODULES chainThree "A"
     ⟨"A", "stable_12x12", 0, 0, .r0, []⟩ stable12 (by decide) (by decide)⟩

/-- In the single-connection case `rotateSelected` either fails on overlap
leaving the layout unchanged, or replaces the selected unit by its
re-snapped version. -/
theorem rotateSelected_one_conn_eq (cat : List ModuleDef) (st : Layout)
    (selUid : String) (sel : PlacedUnit) (m : ModuleDef) (conn : Connection)
    (other : PlacedUnit) (otherMod : ModuleDef) (myDef otherDef : Connector)
    (hfind : findUnit st selUid = some sel)
    (hm : getModuleIn cat sel.moduleId = some m)
    (hconn : connectionsOf st sel.uid = [conn])
    (hfother : findUnit st
      (if conn.aUid = sel.uid then conn.bUid else conn.aUid) = some other)
    (hmo : getModuleIn cat other.moduleId = some otherMod)
    (hfmy : m.connectors.find? (fun c => decide
      (c.id = (if conn.aUid = sel.uid then conn.aConn else conn.bConn))) =
        some myDef)
    (hfot : otherMod.connectors.find? (fun c => decide
      (c.id = (if conn.aUid = sel.uid then conn.bConn else conn.aConn))) =
        some otherDef) :
    rotateSelected cat st selUid = (st, some LayoutError.overlap) ∨
    rotateSelected cat st selUid =
      ({ st with units := st.units.map (fun u =>
          if u.uid = sel.uid then rotSnapped sel m other otherMod myDef otherDef
          else u) }, none) := by
  unfold rotateSelected
  simp only [hfind, hm, hconn, List.length_singleton, lt_self_iff_false,
    if_false, hfother, hmo, hfmy, hfot]
  unfold rotSnapped
  split
  · left; rfl
  · right; rfl

/-- Claim C6 (`C6`): for a unit with at most one connection, `rotateSelected` leaves
the layout untouched whenever it fails, and on success with exactly one
connection the shared connector's world position is preserved: the other
endpoint is returned unchanged and the rotated unit's matched connector
world position coincides with the other endpoint's connector world
position. -/
theorem c6_rotate_unit_preserves_shared_connector (cat : List ModuleDef)
    (st : Layout) (selUid : String) (sel : PlacedUnit) (m : ModuleDef)
    (hfind : findUnit st selUid = some sel)
    (hm : getModuleIn cat sel.moduleId = some m)
    (hlen : (connectionsOf st selUid).length ≤ 1) :
    ((rotateSelected cat st selUid).2 ≠ none →
      (rotateSelected cat st selUid).1 = st) ∧
    (∀ conn other otherMod myDef otherDef,
      connectionsOf st selUid = [conn] →
      findUnit st (if conn.aUid = sel.uid then conn.bUid else conn.aUid) =
        some other →
      getModuleIn cat other.moduleId = some otherMod →
      m.connectors.find? (fun c => decide
        (c.id = (if conn.aUid = sel.uid then conn.aConn else conn.bConn))) =
          some myDef →
      otherMod.connectors.find? (fun c => decide
        (c.id = (if conn.aUid = sel.uid then conn.bConn else conn.aConn))) =
          some otherDef →
      (if conn.aUid = sel.uid then conn.bUid else conn.aUid) ≠ selUid →
      (rotateSelected cat st selUid).2 = none →
      (findUnit (rotateSelected cat st selUid).1
          (if conn.aUid = sel.uid then conn.bUid else conn.aUid) = some other ∧
       ∃ sel2, findUnit (rotateSelected cat st selUid).1 selUid = some sel2 ∧
         (connectorWorld sel2 m myDef).x =
           (connectorWorld other otherMod otherDef).x ∧
         (connectorWorld sel2 m myDef).y =
           (connectorWorld other otherMod otherDef).y)) := by
  have hseluid : sel.uid = selUid := by simpa using List.find?_some hfind
  constructor
  · intro hne
    rcases he : (rotateSelected cat st selUid).2 with _ | e
    · exact absurd he hne
    · exact rotateSelected_fail_unchanged cat st selUid _ e (by rw [← he])
  · intro conn other otherMod myDef otherDef hconn hfother hmo hfmy hfot hneq hsucc
    have hconn' : connectionsOf st sel.uid = [conn] := by
      rw [hseluid]; exact hconn
    have hotheruid : other.uid =
        (if conn.aUid = sel.uid then conn.bUid else conn.aUid) := by
      simpa using List.find?_some hfother
    rcases rotateSelected_one_conn_eq cat st selUid sel m conn other otherMod
        myDef otherDef hfind hm hconn' hfother hmo hfmy hfot with hcase | hcase
    · rw [hcase] at hsucc
      simp at hsucc
    · rw [hcase]
      have hf : ∀ u : PlacedUnit, ((fun u : PlacedUnit =>
          if u.uid = sel.uid then rotSnapped sel m other otherMod myDef otherDef
          else u) u).uid = u.uid := by
        intro u
        by_cases hu : u.uid = sel.uid <;> simp [hu, rotSnapped]
      have hmap1 := findUnit_map_of_uid_preserved st.units
        (if conn.aUid = sel.uid then conn.bUid else conn.aUid) _ hf st.connections
      have hmap2 := findUnit_map_of_uid_preserved st.units selUid _ hf
        st.connections
      constructor
      · show findUnit ⟨st.units.map _, st.connections⟩ _ = some other
        rw [hmap1]
        have : findUnit ⟨st.units, st.connections⟩
            (if conn.aUid = sel.uid then conn.bUid else conn.aUid) = some other :=
          hfother
        rw [this]
        simp only [Option.map_some']
        have hne2 : ¬ other.uid = sel.uid := by
          intro h
          apply hneq
          rw [← hotheruid, h]
          exact hseluid
        simp [hne2]
      · refine ⟨rotSnapped sel m other otherMod myDef otherDef, ?_, ?_, ?_⟩
        · show findUnit ⟨st.units.map _, st.connections⟩ selUid = some _
          rw [hmap2]
          have : findUnit ⟨st.units, st.connections⟩ selUid = some sel := hfind
          rw [this]
          simp
        · simp only [connectorWorld, rotSnapped]
          ring
        · simp only [connectorWorld, rotSnapped]
          ring

unseal Rat.add Rat.mul Rat.inv Rat.sub Rat.ofScientific in
/-- Witness for `C6`: a singly-connected 2×2 unit rotates successfully
about its shared connector. -/
theorem c6_rotate_unit_witness :
    (findUnit rotLayout "u2" = some u2small ∧
     getModuleIn rotCat u2small.moduleId = some dMod ∧
     (connectionsOf rotLayout "u2").length ≤ 1 ∧
     (rotateSelected rotCat rotLayout "u2").2 = none) ∧
    (((rotateSelected rotCat rotLayout "u2").2 ≠ none →
       (rotateSelected rotCat rotLayout "u2").1 = rotLayout) ∧
     (∀ conn other otherMod myDef otherDef,
       connectionsOf rotLayout "u2" = [conn] →
       findUnit rotLayout
         (if conn.aUid = u2small.uid then conn.bUid else conn.aUid) =
           some other →
       getModuleIn rotCat other.moduleId = some otherMod →
       dMod.connectors.find? (fun c => decide
         (c.id = (if conn.aUid = u2small.uid then conn.aConn else conn.bConn))) =
           some myDef →
       otherMod.connectors.find? (fun c => decide
         (c.id = (if conn.aUid = u2small.uid then conn.bConn else conn.aConn))) =
           some otherDef →
       (if conn.aUid = u2small.uid then conn.bUid else conn.aUid) ≠ "u2" →
       (rotateSelected rotCat rotLayout "u2").2 = none →
       (findUnit (rotateSelected rotCat rotLayout "u2").1
           (if conn.aUid = u2small.uid then conn.bUid else conn.aUid) =
             some other ∧
        ∃ sel2, findUnit (rotateSelected rotCat rotLayout "u2").1 "u2" =
            some sel2 ∧
          (connectorWorld sel2 dMod myDef).x =
            (connectorWorld other otherMod otherDef).x ∧
          (connectorWorld sel2 dMod myDef).y =
            (connectorWorld other otherMod otherDef).y))) :=
  ⟨⟨by decide, by decide, by decide, by decide⟩,
   c6_rotate_unit_preserves_shared_connector rotCat rotLayout "u2" u2small dMod
     (by decide) (by decide) (by decide)⟩

theorem foldl_option_pred {α β : Type} (P : β → Prop)
    (f : Option β → α → Option β) (l : List α) (init : Option β)
    (hinit : ∀ b, init = some b → P b)
    (hf : ∀ acc a b, a ∈ l → (∀ b0, acc = some b0 → P b0) →
      f acc a = some b → P b) :
    ∀ b, l.foldl f init = some b → P b := by
  induction l generalizing init with
  | nil => exact hinit
  | cons a l ih =>
    intro b hb
    exact ih (f init a)
      (fun b0 h0 => hf init a b0 (.head _) hinit h0)
      (fun acc a' b' ha' hacc h' => hf acc a' b' (.tail _ ha') hacc h')
      b hb

theorem scoreCand_shape (newMod aMod : ModuleDef) (sourceUnit : PlacedUnit)
    (tcId : String) (aW : CW) (rot : Rotation) (c : Connector) (cand : Cand)
    (h : scoreCand newMod aMod sourceUnit tcId aW rot c = some cand) :
    cand.rot = rot ∧ cand.conn = c.id ∧
    cand.x = aW.x - (rotatePoint c.x c.y newMod.widthFt newMod.depthFt rot).1 ∧
    cand.y = aW.y - (rotatePoint c.x c.y newMod.widthFt newMod.depthFt rot).2 := by
  unfold scoreCand at h
  repeat'
    first
    | split at h
    | (rw [ite_eq_iff] at h
       rcases h with ⟨hc, h⟩ | ⟨hc, h⟩)
  all_goals try simp_all
  all_goals repeat'
    first
    | split at h
    | (rw [ite_eq_iff] at h
       rcases h with ⟨hc2, h⟩ | ⟨hc2, h⟩)
  all_goals try simp_all
  all_goals first
    | (rw [← h]
       exact ⟨rfl, rfl, rfl, rfl⟩)
    | (rw [h]
       exact ⟨rfl, rfl, rfl, rfl⟩)

theorem innerSearch_shape (newMod aMod : ModuleDef) (sourceUnit : PlacedUnit)
    (tcId : String) (aW : CW) (cand : Cand)
    (h : innerSearch newMod aMod sourceUnit tcId aW = some cand) :
    ∃ c ∈ newMod.connectors, cand.conn = c.id ∧
      cand.x = aW.x -
        (rotatePoint c.x c.y newMod.widthFt newMod.depthFt cand.rot).1 ∧
      cand.y = aW.y -
        (rotatePoint c.x c.y newMod.widthFt newMod.depthFt cand.rot).2 := by
  unfold innerSearch at h
  refine foldl_option_pred
    (fun cand : Cand => ∃ c ∈ newMod.connectors, cand.conn = c.id ∧
      cand.x = aW.x -
        (rotatePoint c.x c.y newMod.widthFt newMod.depthFt cand.rot).1 ∧
      cand.y = aW.y -
        (rotatePoint c.x c.y newMod.widthFt newMod.depthFt cand.rot).2)
    _ newMod.rotations none (fun b hb => Option.noConfusion hb) ?_ cand h
  intro acc rot b _ hacc hb
  refine foldl_option_pred _ _ newMod.connectors acc hacc ?_ b hb
  intro acc2 c b2 hc hacc2 hb2
  rcases hsc : scoreCand newMod aMod sourceUnit tcId aW rot c with _ | cnd
  · rw [hsc] at hb2
    exact hacc2 b2 hb2
  · rw [hsc] at hb2
    obtain ⟨hr, hcn, hx, hy⟩ := scoreCand_shape _ _ _ _ _ _ _ _ hsc
    rcases acc2 with _ | b0
    · simp only at hb2
      cases hb2
      exact ⟨c, hc, by rw [hcn], by rw [hx, hr], by rw [hy, hr]⟩
    · simp only at hb2
      split at hb2
      · cases hb2
        exact ⟨c, hc, by rw [hcn], by rw [hx, hr], by rw [hy, hr]⟩
      · exact hacc2 b2 hb2

theorem attachSearch_shape (aMod newMod : ModuleDef) (sourceUnit : PlacedUnit)
    (connections : List Connection) (b : CandT)
    (h : attachSearch aMod newMod sourceUnit connections = some b) :
    ∃ tc ∈ aMod.connectors, b.targetConn = tc.id ∧
      ∃ c ∈ newMod.connectors, b.conn = c.id ∧
        b.x = (connectorWorld sourceUnit aMod tc).x -
          (rotatePoint c.x c.y newMod.widthFt newMod.depthFt b.rot).1 ∧
        b.y = (connectorWorld sourceUnit aMod tc).y -
          (rotatePoint c.x c.y newMod.widthFt newMod.depthFt b.rot).2 := by
  unfold attachSearch at h
  refine foldl_option_pred
    (fun b : CandT => ∃ tc ∈ aMod.connectors, b.targetConn = tc.id ∧
      ∃ c ∈ newMod.connectors, b.conn = c.id ∧
        b.x = (connectorWorld sourceUnit aMod tc).x -
          (rotatePoint c.x c.y newMod.widthFt newMod.depthFt b.rot).1 ∧
        b.y = (connectorWorld sourceUnit aMod tc).y -
          (rotatePoint c.x c.y newMod.widthFt newMod.depthFt b.rot).2)
    _ aMod.connectors none (fun b hb => Option.noConfusion hb) ?_ b h
  intro acc tc b2 htc hacc hb2
  by_cases hused : isUsed connections sourceUnit.uid tc.id = true
  · rw [if_pos hused] at hb2
    exact hacc b2 hb2
  · rw [if_neg hused] at hb2
    rcases hin : innerSearch newMod aMod sourceUnit tc.id
        (connectorWorld sourceUnit aMod tc) with _ | best
    · simp only [hin] at hb2
      exact hacc b2 hb2
    · simp only [hin] at hb2
      obtain ⟨c, hc, hcn, hx, hy⟩ := innerSearch_shape _ _ _ _ _ _ hin
      rcases acc with _ | bo
      · simp only at hb2
        cases hb2
        exact ⟨tc, htc, rfl, c, hc, hcn, hx, hy⟩
      · simp only at hb2
        split at hb2
        · cases hb2
          exact ⟨tc, htc, rfl, c, hc, hcn, hx, hy⟩
        · exact hacc b2 hb2

/-- Claim C4 (`C4`): every successful `attach` appends exactly one unit and one
connection, and the world position of the new unit's matched connector —
its origin plus the connector's rotated local position — coincides exactly
with the world position of the chosen target connector on the existing
unit. -/
theorem c4_attach_alignment (cat : List ModuleDef) (st : Layout)
    (newUid moduleId targetConn sourceUid : String) (st' : Layout)
    (src : PlacedUnit) (aMod newMod : ModuleDef)
    (hfind : findUnit st sourceUid = some src)
    (haMod : getModuleIn cat src.moduleId = some aMod)
    (hnewMod : getModuleIn cat moduleId = some newMod)
    (h : attach cat st newUid moduleId targetConn sourceUid = (st', none)) :
    ∃ nu ncn, st'.units = st.units ++ [nu] ∧
      st'.connections = st.connections ++ [ncn] ∧
      nu.uid = newUid ∧ ncn.aUid = src.uid ∧ ncn.bUid = newUid ∧
      ∃ cdef ∈ newMod.connectors, cdef.id = ncn.bConn ∧
      ∃ tdef ∈ aMod.connectors, tdef.id = ncn.aConn ∧
        (connectorWorld nu newMod cdef).x = (connectorWorld src aMod tdef).x ∧
        (connectorWorld nu newMod cdef).y = (connectorWorld src aMod tdef).y := by
  unfold attach at h
  simp only [hfind, haMod, hnewMod] at h
  rcases hsearch : attachSearch aMod newMod src st.connections with _ | best
  · rw [hsearch] at h
    simp at h
  · rw [hsearch] at h
    rw [ite_eq_iff] at h
    rcases h with ⟨hc, h⟩ | ⟨hc, h⟩
    · exact absurd (congrArg Prod.snd h) (by simp)
    · have hu : st' =
          (⟨st.units ++ [⟨newUid, moduleId, best.x, best.y, best.rot, []⟩],
            st.connections ++ [⟨src.uid, best.targetConn, newUid, best.conn⟩]⟩ :
            Layout) :=
        (congrArg Prod.fst h).symm
      obtain ⟨tc, htc, htcid, c, hcmem, hcid, hx, hy⟩ :=
        attachSearch_shape _ _ _ _ _ hsearch
      refine ⟨⟨newUid, moduleId, best.x, best.y, best.rot, []⟩,
        ⟨src.uid, best.targetConn, newUid, best.conn⟩, ?_, ?_, rfl, rfl, rfl,
        c, hcmem, hcid.symm, tc, htc, htcid.symm, ?_, ?_⟩
      · rw [hu]
      · rw [hu]
      · simp only [connectorWorld] at hx ⊢
        rw [hx]
        ring
      · simp only [connectorWorld] at hy ⊢
        rw [hy]
        ring

unseal Rat.add Rat.mul Rat.inv Rat.sub Rat.ofScientific in
/-- Witness for `C4`: a concrete successful `attach` whose new unit's
matched connector lands exactly on the target connector. -/
theorem c4_attach_alignment_witness :
    (findUnit demoSt "u1" = some demoU1 ∧
     getModuleIn demoCat demoU1.moduleId = some demoMod ∧
     getModuleIn demoCat "demo" = some demoMod ∧
     attach demoCat demoSt "u2" "demo" "RIGHT" "u1" =
       ((attach demoCat demoSt "u2" "demo" "RIGHT" "u1").1, none)) ∧
    (∃ nu ncn, (attach demoCat demoSt "u2" "demo" "RIGHT" "u1").1.units =
        demoSt.units ++ [nu] ∧
      (attach demoCat demoSt "u2" "demo" "RIGHT" "u1").1.connections =
        demoSt.connections ++ [ncn] ∧
      nu.uid = "u2" ∧ ncn.aUid = demoU1.uid ∧ ncn.bUid = "u2" ∧
      ∃ cdef ∈ demoMod.connectors, cdef.id = ncn.bConn ∧
      ∃ tdef ∈ demoMod.connectors, tdef.id = ncn.aConn ∧
        (connectorWorld nu demoMod cdef).x =
          (connectorWorld demoU1 demoMod tdef).x ∧
        (connectorWorld nu demoMod cdef).y =
          (connectorWorld demoU1 demoMod tdef).y) :=
  ⟨⟨by decide, by decide, by decide, by decide⟩,
   c4_attach_alignment demoCat demoSt "u2" "demo" "RIGHT" "u1" _ demoU1 demoMod
     demoMod (by decide) (by decide) (by decide) (by decide)⟩

theorem resolveUnits_map_fst (cat : List ModuleDef) :
    ∀ (us : List PlacedUnit) (L : List (PlacedUnit × ModuleDef)),
      resolveUnits cat us = some L → L.map Prod.fst = us := by
  intro us
  induction us with
  | nil => intro L h; cases h; rfl
  | cons u us ih =>
    intro L h
    unfold resolveUnits at h
    rcases hm : getModuleIn cat u.moduleId with _ | m <;> rw [hm] at h
    · cases h
    · rcases hr : resolveUnits cat us with _ | rest <;> rw [hr] at h
      · cases h
      · cases h
        simp [ih rest hr]

theorem resolveUnits_mods (cat : List ModuleDef) :
    ∀ (us : List PlacedUnit) (L : List (PlacedUnit × ModuleDef)),
      resolveUnits cat us = some L →
        ∀ p ∈ L, getModuleIn cat p.1.moduleId = some p.2 := by
  intro us
  induction us with
  | nil => intro L h; cases h; intro p hp; cases hp
  | cons u us ih =>
    intro L h
    unfold resolveUnits at h
    rcases hm : getModuleIn cat u.moduleId with _ | m <;> rw [hm] at h
    · cases h
    · rcases hr : resolveUnits cat us with _ | rest <;> rw [hr] at h
      · cases h
      · cases h
        intro p hp
        rcases List.mem_cons.mp hp with hp | hp
        · cases hp; exact hm
        · exact ih rest hr p hp

theorem resolveUnits_map (cat : List ModuleDef)
    (f : PlacedUnit × ModuleDef → PlacedUnit) :
    ∀ L : List (PlacedUnit × ModuleDef),
      (∀ p ∈ L, getModuleIn cat p.1.moduleId = some p.2) →
      (∀ p ∈ L, (f p).moduleId = p.1.moduleId) →
      resolveUnits cat (L.map f) = some (L.map fun p => (f p, p.2)) := by
  intro L
  induction L with
  | nil => intro _ _; rfl
  | cons p L ih =>
    intro hmods hf
    have hm : getModuleIn cat (f p).moduleId = some p.2 := by
      rw [hf p (.head _)]
      exact hmods p (.head _)
    simp only [List.map_cons]
    unfold resolveUnits
    rw [hm, ih (fun q hq => hmods q (.tail _ hq)) (fun q hq => hf q (.tail _ hq))]

theorem qsum_map_congr {α : Type} (l : List α) (f g : α → ℚ)
    (h : ∀ a ∈ l, f a = g a) : (l.map f).sum = (l.map g).sum := by
  rw [List.map_congr_left h]

theorem qsum_map_sub {α : Type} (l : List α) (f g : α → ℚ) :
    (l.map fun a => f a - g a).sum = (l.map f).sum - (l.map g).sum := by
  induction l with
  | nil => simp
  | cons a l ih => simp [ih]; ring

theorem qsum_map_mul_left {α : Type} (l : List α) (c : ℚ) (f : α → ℚ) :
    (l.map fun a => c * f a).sum = c * (l.map f).sum := by
  induction l with
  | nil => simp
  | cons a l ih => simp [ih]; ring

theorem qsum_pos {α : Type} (l : List α) (f : α → ℚ)
    (h : ∀ a ∈ l, 0 < f a) (hne : l ≠ []) : 0 < (l.map f).sum := by
  induction l with
  | nil => exact absurd rfl hne
  | cons a l ih =>
    rcases l with _ | ⟨b, l⟩
    · simpa using h a (.head _)
    · have h1 := h a (.head _)
      have h2 := ih (fun x hx => h x (.tail _ hx)) (by simp)
      simp only [List.map_cons, List.sum_cons] at h2 ⊢
      linarith

theorem areaOf_rotUnit90 (cx cy : ℚ) (p : PlacedUnit × ModuleDef) :
    areaOf (rotUnit90 cx cy p, p.2) = areaOf p := by
  obtain ⟨⟨uid, mid, x, y, rot, ex⟩, m⟩ := p
  cases rot <;> simp [areaOf, rotUnit90, bbox, rotatedSize, rotPlus90] <;> ring

theorem center_rotUnit90 (cx cy : ℚ) (p : PlacedUnit × ModuleDef) :
    unitCenter (rotUnit90 cx cy p, p.2) =
      (cx + cy - (unitCenter p).2, cy - cx + (unitCenter p).1) := by
  obtain ⟨⟨uid, mid, x, y, rot, ex⟩, m⟩ := p
  simp only [unitCenter, rotUnit90, bbox, Prod.mk.injEq]
  constructor <;> ring

theorem rotUnit90_four (cx cy : ℚ) (p : PlacedUnit × ModuleDef) :
    rotUnit90 cx cy (rotUnit90 cx cy (rotUnit90 cx cy
      (rotUnit90 cx cy p, p.2), p.2), p.2) = p.1 := by
  obtain ⟨⟨uid, mid, x, y, rot, ex⟩, m⟩ := p
  cases rot <;>
    simp only [rotUnit90, unitCenter, bbox, rotatedSize, rotPlus90,
      PlacedUnit.mk.injEq] <;>
    simp <;> constructor <;> ring

theorem rotateLayout_eq (cat : List ModuleDef) (st : Layout)
    (L : List (PlacedUnit × ModuleDef)) (hne : st.units ≠ [])
    (hres : resolveUnits cat st.units = some L) :
    rotateLayout cat st =
      ⟨L.map (rotUnit90
          ((L.map fun p => (unitCenter p).1 * areaOf p).sum / (L.map areaOf).sum)
          ((L.map fun p => (unitCenter p).2 * areaOf p).sum / (L.map areaOf).sum)),
        st.connections⟩ := by
  unfold rotateLayout
  rw [if_neg (fun hcon => hne (List.length_eq_zero.mp hcon)), hres]

theorem rotateLayout_connections (cat : List ModuleDef) (st : Layout) :
    (rotateLayout cat st).connections = st.connections := by
  unfold rotateLayout
  repeat' split
  all_goals rfl

theorem qsum_map_add {α : Type} (l : List α) (f g : α → ℚ) :
    (l.map fun a => f a + g a).sum = (l.map f).sum + (l.map g).sum := by
  induction l with
  | nil => simp
  | cons a l ih => simp [ih]; ring

theorem centroid_step (L : List (PlacedUnit × ModuleDef)) (cx cy : ℚ)
    (hW : (L.map areaOf).sum ≠ 0)
    (hcx : cx = (L.map fun p => (unitCenter p).1 * areaOf p).sum /
      (L.map areaOf).sum)
    (hcy : cy = (L.map fun p => (unitCenter p).2 * areaOf p).sum /
      (L.map areaOf).sum) :
    ((L.map fun p => (rotUnit90 cx cy p, p.2)).map areaOf).sum =
      (L.map areaOf).sum ∧
    ((L.map fun p => (rotUnit90 cx cy p, p.2)).map fun p =>
        (unitCenter p).1 * areaOf p).sum /
      ((L.map fun p => (rotUnit90 cx cy p, p.2)).map areaOf).sum = cx ∧
    ((L.map fun p => (rotUnit90 cx cy p, p.2)).map fun p =>
        (unitCenter p).2 * areaOf p).sum /
      ((L.map fun p => (rotUnit90 cx cy p, p.2)).map areaOf).sum = cy := by
  have harea : ((L.map fun p => (rotUnit90 cx cy p, p.2)).map areaOf) =
      L.map areaOf := by
    rw [List.map_map]
    exact List.map_congr_left (fun p _ => areaOf_rotUnit90 cx cy p)
  have hSx : ((L.map fun p => (rotUnit90 cx cy p, p.2)).map fun p =>
      (unitCenter p).1 * areaOf p).sum =
      (cx + cy) * (L.map areaOf).sum -
        (L.map fun p => (unitCenter p).2 * areaOf p).sum := by
    rw [List.map_map]
    rw [List.map_congr_left (fun p (_ : p ∈ L) => show
        ((fun p => (unitCenter p).1 * areaOf p) ∘
          fun p => (rotUnit90 cx cy p, p.2)) p =
        (cx + cy) * areaOf p - (unitCenter p).2 * areaOf p from by
      simp only [Function.comp, center_rotUnit90, areaOf_rotUnit90]
      ring)]
    rw [qsum_map_sub, qsum_map_mul_left]
  have hSy : ((L.map fun p => (rotUnit90 cx cy p, p.2)).map fun p =>
      (unitCenter p).2 * areaOf p).sum =
      (cy - cx) * (L.map areaOf).sum +
        (L.map fun p => (unitCenter p).1 * areaOf p).sum := by
    rw [List.map_map]
    rw [List.map_congr_left (fun p (_ : p ∈ L) => show
        ((fun p => (unitCenter p).2 * areaOf p) ∘
          fun p => (rotUnit90 cx cy p, p.2)) p =
        (cy - cx) * areaOf p + (unitCenter p).1 * areaOf p from by
      simp only [Function.comp, center_rotUnit90, areaOf_rotUnit90]
      ring)]
    rw [qsum_map_add, qsum_map_mul_left]
  have hSyW : (L.map fun p => (unitCenter p).2 * areaOf p).sum =
      cy * (L.map areaOf).sum := by
    rw [hcy, div_mul_cancel₀ _ hW]
  have hSxW : (L.map fun p => (unitCenter p).1 * areaOf p).sum =
      cx * (L.map areaOf).sum := by
    rw [hcx, div_mul_cancel₀ _ hW]
  refine ⟨congrArg List.sum harea, ?_, ?_⟩
  · rw [congrArg List.sum harea, hSx, hSyW]
    rw [show (cx + cy) * (L.map areaOf).sum - cy * (L.map areaOf).sum =
      cx * (L.map areaOf).sum from by ring]
    exact mul_div_cancel_right₀ cx hW
  · rw [congrArg List.sum harea, hSy, hSxW]
    rw [show (cy - cx) * (L.map areaOf).sum + cx * (L.map areaOf).sum =
      cy * (L.map areaOf).sum from by ring]
    exact mul_div_cancel_right₀ cy hW

/-- Claim C8 (`C8`): on a non-empty layout whose modules resolve, four applications of
`rotateLayout` return every unit to its original position and rotation
exactly (over exact rationals), and every single application leaves the
connection set unchanged. -/
theorem c8_rotate_layout_order_four (cat : List ModuleDef) (st : Layout)
    (L : List (PlacedUnit × ModuleDef))
    (hpos : ∀ md ∈ cat, 0 < md.widthFt ∧ 0 < md.depthFt)
    (hne : st.units ≠ []) (hres : resolveUnits cat st.units = some L) :
    (rotateLayout cat (rotateLayout cat (rotateLayout cat
      (rotateLayout cat st)))).units = st.units ∧
    ∀ st2 : Layout, (rotateLayout cat st2).connections = st2.connections := by
  refine ⟨?_, fun st2 => rotateLayout_connections cat st2⟩
  have hLfst : L.map Prod.fst = st.units := resolveUnits_map_fst cat st.units L hres
  have hLmods : ∀ p ∈ L, getModuleIn cat p.1.moduleId = some p.2 :=
    resolveUnits_mods cat st.units L hres
  have hLne : L ≠ [] := by
    intro hL
    rw [hL] at hLfst
    exact hne hLfst.symm
  have hareaPos : ∀ p ∈ L, 0 < areaOf p := by
    intro p hp
    obtain ⟨hw, hd⟩ := hpos p.2 (getModuleIn_mem (hLmods p hp))
    obtain ⟨h1, h2⟩ := bbox_pos p.1 p.2 hw hd
    unfold areaOf
    exact mul_pos h1 h2
  have hW : (L.map areaOf).sum ≠ 0 := ne_of_gt (qsum_pos L areaOf hareaPos hLne)
  set cx := (L.map fun p => (unitCenter p).1 * areaOf p).sum /
    (L.map areaOf).sum with hcx
  set cy := (L.map fun p => (unitCenter p).2 * areaOf p).sum /
    (L.map areaOf).sum with hcy
  set L1 := L.map (fun p => (rotUnit90 cx cy p, p.2)) with hL1
  have h1 : rotateLayout cat st = ⟨L.map (rotUnit90 cx cy), st.connections⟩ :=
    rotateLayout_eq cat st L hne hres
  have hres1 : resolveUnits cat (L.map (rotUnit90 cx cy)) = some L1 :=
    resolveUnits_map cat (rotUnit90 cx cy) L hLmods (fun p _ => rfl)
  have hL1mods : ∀ p ∈ L1, getModuleIn cat p.1.moduleId = some p.2 := by
    intro p hp
    obtain ⟨q, hq, rfl⟩ := List.mem_map.mp hp
    exact hLmods q hq
  have hL1ne : L1 ≠ [] := by
    simp only [hL1, ne_eq, List.map_eq_nil]
    exact hLne
  have hcent := centroid_step L cx cy hW hcx hcy
  have hW1 : (L1.map areaOf).sum ≠ 0 := by
    rw [hL1, hcent.1]
    exact hW
  have h2 : rotateLayout cat (⟨L.map (rotUnit90 cx cy), st.connections⟩ : Layout) =
      ⟨L1.map (rotUnit90 cx cy), st.connections⟩ := by
    rw [rotateLayout_eq cat _ L1 (by simpa [hL1] using hL1ne) hres1]
    rw [hL1, hcent.2.1, hcent.2.2]
  set L2 := L1.map (fun p => (rotUnit90 cx cy p, p.2)) with hL2
  have hres2 : resolveUnits cat (L1.map (rotUnit90 cx cy)) = some L2 :=
    resolveUnits_map cat (rotUnit90 cx cy) L1 hL1mods (fun p _ => rfl)
  have hL2mods : ∀ p ∈ L2, getModuleIn cat p.1.moduleId = some p.2 := by
    intro p hp
    obtain ⟨q, hq, rfl⟩ := List.mem_map.mp hp
    exact hL1mods q hq
  have hL2ne : L2 ≠ [] := by
    simp only [hL2, ne_eq, List.map_eq_nil]
    exact hL1ne
  have hcent1 := centroid_step L1 cx cy hW1 hcent.2.1.symm hcent.2.2.symm
  have hW2 : (L2.map areaOf).sum ≠ 0 := by
    rw [hL2, hcent1.1]
    exact hW1
  have h3 : rotateLayout cat (⟨L1.map (rotUnit90 cx cy), st.connections⟩ : Layout) =
      ⟨L2.map (rotUnit90 cx cy), st.connections⟩ := by
    rw [rotateLayout_eq cat _ L2 (by simpa [hL2] using hL2ne) hres2]
    rw [hL2, hcent1.2.1, hcent1.2.2]
  set L3 := L2.map (fun p => (rotUnit90 cx cy p, p.2)) with hL3
  have hres3 : resolveUnits cat (L2.map (rotUnit90 cx cy)) = some L3 :=
    resolveUnits_map cat (rotUnit90 cx cy) L2 hL2mods (fun p _ => rfl)
  have hL3ne : L3 ≠ [] := by
    simp only [hL3, ne_eq, List.map_eq_nil]
    exact hL2ne
  have hcent2 := centroid_step L2 cx cy hW2 hcent1.2.1.symm hcent1.2.2.symm
  have h4 : rotateLayout cat (⟨L2.map (rotUnit90 cx cy), st.connections⟩ : Layout) =
      ⟨L3.map (rotUnit90 cx cy), st.connections⟩ := by
    rw [rotateLayout_eq cat _ L3 (by simpa [hL3] using hL3ne) hres3]
    rw [hL3, hcent2.2.1, hcent2.2.2]
  rw [h1, h2, h3, h4]
  show L3.map (rotUnit90 cx cy) = st.units
  have hfour : L3.map (rotUnit90 cx cy) = L.map Prod.fst := by
    rw [hL3, hL2, hL1]
    simp only [List.map_map]
    exact List.map_congr_left (fun p _ => rotUnit90_four cx cy p)
  rw [hfour, hLfst]

unseal Rat.add Rat.mul Rat.inv Rat.sub Rat.ofScientific in
/-- Witness for `C8` at the initial one-unit layout. -/
theorem c8_rotate_layout_witness :
    ((∀ md ∈ MODULES, 0 < md.widthFt ∧ 0 < md.depthFt) ∧
     oneStable.units ≠ [] ∧
     resolveUnits MODULES oneStable.units =
       some [(⟨"u1", "stable_12x12", 0, 0, .r0, []⟩, stable12)]) ∧
    ((rotateLayout MODULES (rotateLayout MODULES (rotateLayout MODULES
        (rotateLayout MODULES oneStable)))).units = oneStable.units ∧
     ∀ st2 : Layout, (rotateLayout MODULES st2).connections = st2.connections) :=
  ⟨⟨by decide, by decide, by decide⟩,
   c8_rotate_layout_order_four MODULES oneStable
     [(⟨"u1", "stable_12x12", 0, 0, .r0, []⟩, stable12)]
     (by decide) (by decide) (by decide)⟩
